import Mathlib

/-!
Verification of the Dispace displacement-rendering engine.

Shallow embedding of the engine modules:
* `EffectStateManager` (src/ui/engine/EffectState.ts) — effect-parameter math,
* `SVGExporter` (src/ui/engine/SVGExporter.ts) — portable markup export math,
* `FilterRenderer` (same file) — tiled map drawing, render scheduler, export render,
* `ImageLoader` — layer cache, load races,
* `createMirroredTexture` (src/ui/utils/image.ts) — mirrored-edge texture.

JavaScript numbers are modelled as rationals (`ℚ`); `Math.floor`/`Math.ceil`
are `Int.floor`/`Int.ceil`.
-/

namespace Dispace

/-! ## Constants from src/ui/config/constants.ts (APP_CONFIG) -/

/-- `APP_CONFIG.EFFECT_CALCULATIONS.BASE_STRENGTH_DIVISOR`. -/
def BASE_STRENGTH_DIVISOR : ℚ := 10

/-- `APP_CONFIG.EFFECT_CALCULATIONS.STRENGTH_FACTOR`. -/
def STRENGTH_FACTOR : ℚ := 100

/-- `APP_CONFIG.EFFECT_CALCULATIONS.BLUR_FACTOR`. -/
def BLUR_FACTOR : ℚ := 500

/-- `APP_CONFIG.EFFECT_CALCULATIONS.BLUR_SOFTNESS_FACTOR` (10.5). -/
def BLUR_SOFTNESS_FACTOR : ℚ := 21 / 2

/-- `APP_CONFIG.QUALITY.MATCH_PREVIEW_ON_EXPORT`. -/
def MATCH_PREVIEW_ON_EXPORT : Bool := false

/-! ## Effect parameter state (`EffectStateManager`)

The fields of `EngineState` that the parameter math reads. -/

structure EngineState where
  imageWidth : ℚ
  imageHeight : ℚ
  scalePct : ℚ
  previewMax : ℚ

/-- The three per-channel `scale` attribute values written to
`feDispMapR` / `feDispMapG` / `feDispMapB`. -/
structure DispScales where
  r : ℚ
  g : ℚ
  b : ℚ

/-- `EffectStateManager.updateDisplacementScales`: derives the three
per-channel displacement `scale` attributes from the current strength and
chromatic-aberration settings and the engine's image dimensions. -/
def updateDisplacementScales (strength chromaticAberration W H : ℚ) : DispScales :=
  let baseStrength := max W H / BASE_STRENGTH_DIVISOR
  let s := strength * (baseStrength / STRENGTH_FACTOR)
  let ca := (strength / STRENGTH_FACTOR) * chromaticAberration * (baseStrength / STRENGTH_FACTOR)
  ⟨s + ca, s, s - ca⟩

/-- `EffectStateManager.updateBlur`: the `stdDeviation` written to
`feGaussianBlur`. -/
def updateBlurStdDev (blur W H : ℚ) : ℚ :=
  blur * (max W H / BLUR_FACTOR)

/-- `EffectStateManager.setSoft`: the `stdDeviation` written to
`feMapGaussianBlur` for a given soft value and engine state. -/
def setSoftStdDev (soft : ℚ) (st : EngineState) : ℚ :=
  let previewRatio := min 1 (st.previewMax / max st.imageWidth st.imageHeight)
  let baseSoftness := (st.scalePct / 100) * BLUR_SOFTNESS_FACTOR * previewRatio
  soft * baseSoftness

/-! ## Portable exporter math (`SVGExporter.exportSVGCode`)

The exporter assumes a fixed 1024×1024 content image and computes the literal
attribute values for the emitted markup with the same runtime formulas. -/

/-- Fixed export canvas side assumed by `SVGExporter.exportSVGCode`. -/
def exportCanvasSide : ℚ := 1024

/-- The literal `scale` attribute values (`dispScaleR/G/B`) computed by
`SVGExporter.exportSVGCode`. -/
def exportDispScales (strength chromaticAberration : ℚ) : DispScales :=
  let maxDim := max exportCanvasSide exportCanvasSide
  let baseStrength := maxDim / BASE_STRENGTH_DIVISOR
  let s := strength * (baseStrength / STRENGTH_FACTOR)
  let ca := (strength / STRENGTH_FACTOR) * chromaticAberration * (baseStrength / STRENGTH_FACTOR)
  ⟨s + ca, s, s - ca⟩

/-- The literal `softStdDev` value computed by `SVGExporter.exportSVGCode`
(no preview ratio in export). -/
def exportSoftStdDev (soft scalePct : ℚ) : ℚ :=
  soft * ((scalePct / 100) * BLUR_SOFTNESS_FACTOR)

/-- The literal `blurStdDev` value computed by `SVGExporter.exportSVGCode`. -/
def exportBlurStdDev (blur : ℚ) : ℚ :=
  blur * (max exportCanvasSide exportCanvasSide / BLUR_FACTOR)

end Dispace

namespace Dispace

/-! ## C1: per-channel displacement scales, live and exported -/

/-- C1. For every strength, chromatic-aberration value and image dimensions,
the per-channel `scale` attributes written by `updateDisplacementScales` are
`s + ca` (red), `s` (green), `s - ca` (blue) with
`baseStrength = max(W,H)/10`, `s = strength*(baseStrength/100)`,
`ca = (strength/100)*chromatic*(baseStrength/100)`; the portable exporter
computes its three literal scale values by the same formula at the fixed
1024×1024 export canvas; and chromatic aberration 0 makes all three channel
scales equal. -/
theorem displacement_scales_formula (strength ca W H : ℚ) :
    ((updateDisplacementScales strength ca W H).r =
        strength * ((max W H / 10) / 100) +
          (strength / 100) * ca * ((max W H / 10) / 100) ∧
      (updateDisplacementScales strength ca W H).g =
        strength * ((max W H / 10) / 100) ∧
      (updateDisplacementScales strength ca W H).b =
        strength * ((max W H / 10) / 100) -
          (strength / 100) * ca * ((max W H / 10) / 100)) ∧
    exportDispScales strength ca = updateDisplacementScales strength ca 1024 1024 ∧
    ((updateDisplacementScales strength 0 W H).r =
        (updateDisplacementScales strength 0 W H).g ∧
      (updateDisplacementScales strength 0 W H).g =
        (updateDisplacementScales strength 0 W H).b) := by
  refine ⟨⟨rfl, rfl, rfl⟩, ?_, ?_, ?_⟩
  · simp [exportDispScales, updateDisplacementScales, exportCanvasSide]
  · simp [updateDisplacementScales]
  · simp [updateDisplacementScales]

/-! ## C7: map-blur std deviation written by `setSoft` -/

/-- C7 counterexample. The claim states `setSoft` writes
`soft * (scalePct/100 * 10.5)`; at soft = 1, scalePct = 100, previewMax = 500
and a 1000×1000 image the code writes `21/4` (the preview ratio halves it),
not `21/2`. -/
theorem setSoft_claim_false :
    setSoftStdDev 1 ⟨1000, 1000, 100, 500⟩ ≠ 1 * ((100 / 100) * BLUR_SOFTNESS_FACTOR) := by
  norm_num [setSoftStdDev, BLUR_SOFTNESS_FACTOR]

/-- C7 (amended). `setSoft` writes
`soft * (scalePct/100 * 10.5 * previewRatio)` with
`previewRatio = min(1, previewMax / max(W,H))`, so the map-blur radius also
depends on the preview cap and the image dimensions; the original formula
holds exactly when the image fits the preview cap; the exporter's literal
`softStdDev` uses the ratio-free formula. -/
theorem setSoft_formula (soft scalePct : ℚ) (st : EngineState) :
    setSoftStdDev soft st =
      soft * ((st.scalePct / 100) * BLUR_SOFTNESS_FACTOR *
        min 1 (st.previewMax / max st.imageWidth st.imageHeight)) ∧
    (0 < max st.imageWidth st.imageHeight →
      max st.imageWidth st.imageHeight ≤ st.previewMax →
      setSoftStdDev soft st = soft * ((st.scalePct / 100) * BLUR_SOFTNESS_FACTOR)) ∧
    exportSoftStdDev soft scalePct = soft * ((scalePct / 100) * BLUR_SOFTNESS_FACTOR) := by
  refine ⟨rfl, ?_, rfl⟩
  intro hpos hle
  have hone : (1 : ℚ) ≤ st.previewMax / max st.imageWidth st.imageHeight :=
    (one_le_div hpos).mpr hle
  simp [setSoftStdDev, min_eq_left hone]

/-- C7 witness: instantiating `setSoft_formula` at soft = 2, scalePct = 40 on
a 300×200 image with preview cap 500. -/
theorem setSoft_formula_witness :
    (0 : ℚ) < max (300 : ℚ) 200 ∧ max (300 : ℚ) 200 ≤ 500 ∧
    setSoftStdDev 2 ⟨300, 200, 40, 500⟩ =
      2 * (((40 : ℚ) / 100) * BLUR_SOFTNESS_FACTOR) := by
  refine ⟨by norm_num, by norm_num, ?_⟩
  exact (setSoft_formula 2 40 ⟨300, 200, 40, 500⟩).2.1 (by norm_num) (by norm_num)

/-! ## C8: image-size-derived attributes are linear in `max(W,H)` -/

/-- C8. Scaling the image dimensions by a nonnegative factor `k` scales each
image-size-derived graph attribute — the three per-channel displacement
scales and the source-blur `stdDeviation` — by exactly `k`. -/
theorem attributes_linear_in_dimensions (W H k strength ca blur : ℚ) (hk : 0 ≤ k) :
    (updateDisplacementScales strength ca (k * W) (k * H)).r =
      k * (updateDisplacementScales strength ca W H).r ∧
    (updateDisplacementScales strength ca (k * W) (k * H)).g =
      k * (updateDisplacementScales strength ca W H).g ∧
    (updateDisplacementScales strength ca (k * W) (k * H)).b =
      k * (updateDisplacementScales strength ca W H).b ∧
    updateBlurStdDev blur (k * W) (k * H) = k * updateBlurStdDev blur W H := by
  have hmax : max (k * W) (k * H) = k * max W H := by
    rcases le_total W H with h | h
    · rw [max_eq_right h, max_eq_right (by exact mul_le_mul_of_nonneg_left h hk)]
    · rw [max_eq_left h, max_eq_left (by exact mul_le_mul_of_nonneg_left h hk)]
  refine ⟨?_, ?_, ?_, ?_⟩ <;>
    simp only [updateDisplacementScales, updateBlurStdDev, hmax] <;> ring

/-- C8 witness: the linearity theorem applied at k = 3 on a 40×30 image with
strength 100, chromatic 5, blur 2. -/
theorem attributes_linear_in_dimensions_witness :
    (0 : ℚ) ≤ 3 ∧
    (updateDisplacementScales 100 5 (3 * 40) (3 * 30)).r =
      3 * (updateDisplacementScales 100 5 40 30).r := by
  exact ⟨by norm_num, (attributes_linear_in_dimensions 40 30 3 100 5 2 (by norm_num)).1⟩

end Dispace

namespace Dispace

/-! ## Tiled map drawing (`FilterRenderer.drawTiledMap`)

The inputs of `drawTiledMap`: canvas size, the map bitmap's dimensions, the
computed map scale, and the layer's scale-mode / alignment / offset options. -/

inductive ScaleMode
  | uniform
  | xOnly
  | yOnly
  deriving DecidableEq, Repr

inductive AlignX
  | left
  | center
  | right
  deriving DecidableEq, Repr

inductive AlignY
  | top
  | center
  | bottom
  deriving DecidableEq, Repr

structure TiledDraw where
  canvasW : ℚ
  canvasH : ℚ
  mapW : ℚ
  mapH : ℚ
  mapScale : ℚ
  scaleMode : ScaleMode
  alignX : AlignX
  alignY : AlignY
  offsetX : ℚ
  offsetY : ℚ

/-- Tile width: `max(1, map.width * mapScale)`, overridden to
`max(1, canvasW)` in `yOnly` mode. -/
def tileW (p : TiledDraw) : ℚ :=
  if p.scaleMode = ScaleMode.yOnly then max 1 p.canvasW else max 1 (p.mapW * p.mapScale)

/-- Tile height: `max(1, map.height * mapScale)`, overridden to
`max(1, canvasH)` in `xOnly` mode. -/
def tileH (p : TiledDraw) : ℚ :=
  if p.scaleMode = ScaleMode.xOnly then max 1 p.canvasH else max 1 (p.mapH * p.mapScale)

/-- Tile origin X from alignment (`Math.floor` for `center`) plus offset. -/
def originX (p : TiledDraw) : ℚ :=
  (match p.alignX with
    | AlignX.left => 0
    | AlignX.center => ((⌊(p.canvasW - tileW p) / 2⌋ : ℤ) : ℚ)
    | AlignX.right => p.canvasW - tileW p) + p.offsetX

/-- Tile origin Y from alignment (`Math.floor` for `center`) plus offset. -/
def originY (p : TiledDraw) : ℚ :=
  (match p.alignY with
    | AlignY.top => 0
    | AlignY.center => ((⌊(p.canvasH - tileH p) / 2⌋ : ℤ) : ℚ)
    | AlignY.bottom => p.canvasH - tileH p) + p.offsetY

/-- `startI = Math.floor((0 - originX) / w) - 1`. -/
def startI (p : TiledDraw) : ℤ := ⌊(0 - originX p) / tileW p⌋ - 1

/-- `endI = Math.ceil((canvasW - originX) / w) + 1`. -/
def endI (p : TiledDraw) : ℤ := ⌈(p.canvasW - originX p) / tileW p⌉ + 1

/-- `startJ = Math.floor((0 - originY) / h) - 1`. -/
def startJ (p : TiledDraw) : ℤ := ⌊(0 - originY p) / tileH p⌋ - 1

/-- `endJ = Math.ceil((canvasH - originY) / h) + 1`. -/
def endJ (p : TiledDraw) : ℤ := ⌈(p.canvasH - originY p) / tileH p⌉ + 1

/-- X position of the tile at index `i`. -/
def tileX (p : TiledDraw) (i : ℤ) : ℚ := originX p + (i : ℚ) * tileW p

/-- Y position of the tile at index `j`. -/
def tileY (p : TiledDraw) (j : ℤ) : ℚ := originY p + (j : ℚ) * tileH p

/-- The tiling loop draws tile `(i, j)`: the canvas is nonempty (the early
`return` guard), the index is in the iterated range, and the two
`continue` culling tests do not fire. -/
def tileDrawn (p : TiledDraw) (i j : ℤ) : Prop :=
  0 < p.canvasW ∧ 0 < p.canvasH ∧
  startI p ≤ i ∧ i ≤ endI p ∧ startJ p ≤ j ∧ j ≤ endJ p ∧
  ¬(tileX p i > p.canvasW ∨ tileY p j > p.canvasH) ∧
  ¬(tileX p i + tileW p < 0 ∨ tileY p j + tileH p < 0)

instance (p : TiledDraw) (i j : ℤ) : Decidable (tileDrawn p i j) := by
  unfold tileDrawn; infer_instance

lemma one_le_tileW (p : TiledDraw) : 1 ≤ tileW p := by
  unfold tileW; split <;> exact le_max_left _ _

lemma one_le_tileH (p : TiledDraw) : 1 ≤ tileH p := by
  unfold tileH; split <;> exact le_max_left _ _

/-- One-dimensional key lemma: for a point `px` inside `[0, cw]`, the tile
index `⌊(px - ox) / w⌋` lies in the iterated index range and its tile's
span `[ox + i*w, ox + i*w + w]` contains `px`. -/
lemma tileCover1D (w ox cw px : ℚ) (hw : 1 ≤ w) (h0 : 0 ≤ px) (h1 : px ≤ cw) :
    ⌊(0 - ox) / w⌋ - 1 ≤ ⌊(px - ox) / w⌋ ∧
    ⌊(px - ox) / w⌋ ≤ ⌈(cw - ox) / w⌉ + 1 ∧
    ox + (⌊(px - ox) / w⌋ : ℚ) * w ≤ px ∧
    px ≤ ox + (⌊(px - ox) / w⌋ : ℚ) * w + w := by
  have hw0 : (0 : ℚ) < w := lt_of_lt_of_le one_pos hw
  have hdiv1 : (0 - ox) / w ≤ (px - ox) / w := by
    apply div_le_div_of_nonneg_right ?_ hw0.le
    · linarith
  have hdiv2 : (px - ox) / w ≤ (cw - ox) / w := by
    apply div_le_div_of_nonneg_right ?_ hw0.le
    · linarith
  have hfl : ((⌊(px - ox) / w⌋ : ℚ)) ≤ (px - ox) / w := Int.floor_le _
  have hfl2 : (px - ox) / w < (⌊(px - ox) / w⌋ : ℚ) + 1 := Int.lt_floor_add_one _
  have hcancel : (px - ox) / w * w = px - ox := div_mul_cancel₀ _ (ne_of_gt hw0)
  refine ⟨?_, ?_, ?_, ?_⟩
  · have := Int.floor_le_floor (α := ℚ) hdiv1
    omega
  · have h1 := Int.floor_le_ceil ((px - ox) / w)
    have h2 := Int.ceil_le_ceil (α := ℚ) hdiv2
    omega
  · have : (⌊(px - ox) / w⌋ : ℚ) * w ≤ (px - ox) / w * w :=
      mul_le_mul_of_nonneg_right hfl hw0.le
    rw [hcancel] at this
    linarith
  · have : (px - ox) / w * w < ((⌊(px - ox) / w⌋ : ℚ) + 1) * w :=
      mul_lt_mul_of_pos_right hfl2 hw0
    rw [hcancel] at this
    nlinarith

/-- C5. On a positive canvas, the tiles drawn by the `drawTiledMap` loop
cover the whole canvas rectangle — every canvas point lies inside some drawn
tile, so there is no gap at any edge whether tiles are larger or smaller
than the canvas — and every drawn tile's bounding box meets the canvas
rectangle, i.e. no tile entirely outside `[0,canvasW]×[0,canvasH]` is
drawn. -/
theorem drawTiledMap_covers_and_culls (p : TiledDraw)
    (hw : 0 < p.canvasW) (hh : 0 < p.canvasH) :
    (∀ px py : ℚ, 0 ≤ px → px ≤ p.canvasW → 0 ≤ py → py ≤ p.canvasH →
      ∃ i j : ℤ, tileDrawn p i j ∧
        tileX p i ≤ px ∧ px ≤ tileX p i + tileW p ∧
        tileY p j ≤ py ∧ py ≤ tileY p j + tileH p) ∧
    (∀ i j : ℤ, tileDrawn p i j →
      tileX p i ≤ p.canvasW ∧ 0 ≤ tileX p i + tileW p ∧
      tileY p j ≤ p.canvasH ∧ 0 ≤ tileY p j + tileH p) := by
  constructor
  · intro px py hpx0 hpx1 hpy0 hpy1
    obtain ⟨ha, hb, hc, hd⟩ :=
      tileCover1D (tileW p) (originX p) p.canvasW px (one_le_tileW p) hpx0 hpx1
    obtain ⟨ha', hb', hc', hd'⟩ :=
      tileCover1D (tileH p) (originY p) p.canvasH py (one_le_tileH p) hpy0 hpy1
    refine ⟨⌊(px - originX p) / tileW p⌋, ⌊(py - originY p) / tileH p⌋,
      ⟨hw, hh, ha, hb, ha', hb', ?_, ?_⟩, hc, hd, hc', hd'⟩
    · push_neg
      constructor
      · show originX p + _ * tileW p ≤ p.canvasW
        calc originX p + (⌊(px - originX p) / tileW p⌋ : ℚ) * tileW p ≤ px := hc
          _ ≤ p.canvasW := hpx1
      · show originY p + _ * tileH p ≤ p.canvasH
        calc originY p + (⌊(py - originY p) / tileH p⌋ : ℚ) * tileH p ≤ py := hc'
          _ ≤ p.canvasH := hpy1
    · push_neg
      constructor
      · show (0 : ℚ) ≤ tileX p _ + tileW p
        unfold tileX
        linarith
      · show (0 : ℚ) ≤ tileY p _ + tileH p
        unfold tileY
        linarith
  · intro i j hdrawn
    obtain ⟨_, _, _, _, _, _, h7, h8⟩ := hdrawn
    push_neg at h7 h8
    exact ⟨h7.1, h8.1, h7.2, h8.2⟩

/-- C5 witness: coverage instantiated on a 4×4 canvas with a 2×2 map at
scale 1 (drawn tiles contain the canvas corner point (0,0)). -/
theorem drawTiledMap_covers_and_culls_witness :
    (0 : ℚ) < 4 ∧
    ∃ i j : ℤ,
      tileDrawn ⟨4, 4, 2, 2, 1, ScaleMode.uniform, AlignX.left, AlignY.top, 0, 0⟩ i j ∧
      tileX ⟨4, 4, 2, 2, 1, ScaleMode.uniform, AlignX.left, AlignY.top, 0, 0⟩ i ≤ 0 ∧
      (0 : ℚ) ≤ tileX ⟨4, 4, 2, 2, 1, ScaleMode.uniform, AlignX.left, AlignY.top, 0, 0⟩ i +
        tileW ⟨4, 4, 2, 2, 1, ScaleMode.uniform, AlignX.left, AlignY.top, 0, 0⟩ ∧
      tileY ⟨4, 4, 2, 2, 1, ScaleMode.uniform, AlignX.left, AlignY.top, 0, 0⟩ j ≤ 0 ∧
      (0 : ℚ) ≤ tileY ⟨4, 4, 2, 2, 1, ScaleMode.uniform, AlignX.left, AlignY.top, 0, 0⟩ j +
        tileH ⟨4, 4, 2, 2, 1, ScaleMode.uniform, AlignX.left, AlignY.top, 0, 0⟩ := by
  refine ⟨by norm_num, ?_⟩
  exact (drawTiledMap_covers_and_culls _ (by norm_num) (by norm_num)).1
    0 0 le_rfl (by norm_num) le_rfl (by norm_num)

/-- C10. For all inputs (including a zero-size map bitmap and any scale),
the computed tile dimensions are clamped to at least 1 — hence nonzero, so
the start/end index computations never divide by zero — and on a positive
canvas the loop bounds satisfy `startI ≤ endI` and `startJ ≤ endJ`, so the
nested tile loops have finite, nonempty ranges and `drawTiledMap` is total
and terminating. -/
theorem drawTiledMap_total (p : TiledDraw) :
    1 ≤ tileW p ∧ 1 ≤ tileH p ∧ tileW p ≠ 0 ∧ tileH p ≠ 0 ∧
    (0 < p.canvasW → 0 < p.canvasH → startI p ≤ endI p ∧ startJ p ≤ endJ p) := by
  have hw := one_le_tileW p
  have hh := one_le_tileH p
  have hw0 : (0 : ℚ) < tileW p := lt_of_lt_of_le one_pos hw
  have hh0 : (0 : ℚ) < tileH p := lt_of_lt_of_le one_pos hh
  refine ⟨hw, hh, ne_of_gt hw0, ne_of_gt hh0, ?_⟩
  intro hcw hch
  constructor
  · have hdiv : (0 - originX p) / tileW p ≤ (p.canvasW - originX p) / tileW p := by
      apply div_le_div_of_nonneg_right ?_ hw0.le
      · linarith
    have h1 := Int.floor_le_floor (α := ℚ) hdiv
    have h2 := Int.floor_le_ceil ((p.canvasW - originX p) / tileW p)
    unfold startI endI
    omega
  · have hdiv : (0 - originY p) / tileH p ≤ (p.canvasH - originY p) / tileH p := by
      apply div_le_div_of_nonneg_right ?_ hh0.le
      · linarith
    have h1 := Int.floor_le_floor (α := ℚ) hdiv
    have h2 := Int.floor_le_ceil ((p.canvasH - originY p) / tileH p)
    unfold startJ endJ
    omega

/-- C10 witness: the totality facts at a degenerate 0×0 map bitmap with
scale 0 on a 7×5 canvas. -/
theorem drawTiledMap_total_witness :
    (0 : ℚ) < 7 ∧ (0 : ℚ) < 5 ∧
    startI ⟨7, 5, 0, 0, 0, ScaleMode.uniform, AlignX.center, AlignY.center, 3, -2⟩ ≤
      endI ⟨7, 5, 0, 0, 0, ScaleMode.uniform, AlignX.center, AlignY.center, 3, -2⟩ := by
  refine ⟨by norm_num, by norm_num, ?_⟩
  exact ((drawTiledMap_total _).2.2.2.2 (by norm_num) (by norm_num)).1

end Dispace

namespace Dispace

/-! ## Render scheduler (`FilterRenderer` batch/debounce control)

`triggerUpdate` returns early while `isBatchMode` is set and otherwise calls
the debounced update (which cancels any previously scheduled timer and
schedules a new one); `setBatchMode` only flips flags; `triggerBatchUpdate`
clears the reflect-deferral flags and calls the debounced update regardless
of batch mode; the graph-consuming recompute (`updateCallback`) runs when
the debounce timer fires. -/

structure SchedState where
  isBatchMode : Bool
  timerScheduled : Bool
  recomputeCount : ℕ
  deferReflectForNextRedraw : Bool
  deriving DecidableEq, Repr

inductive SchedEv
  | trigUpdate
  | setBatch (enabled : Bool)
  | trigBatchUpdate
  | timerFire
  deriving DecidableEq, Repr

/-- One scheduler event. `trigUpdate` is `FilterRenderer.triggerUpdate`,
`setBatch` is `setBatchMode`, `trigBatchUpdate` is `triggerBatchUpdate`,
and `timerFire` is the debounce timer elapsing (running `updateCallback`,
the graph-consuming recompute). -/
def schedStep (e : SchedEv) (s : SchedState) : SchedState :=
  match e with
  | SchedEv.trigUpdate =>
      if s.isBatchMode then s else { s with timerScheduled := true }
  | SchedEv.setBatch b =>
      { s with
        isBatchMode := b
        deferReflectForNextRedraw := if b then true else s.deferReflectForNextRedraw }
  | SchedEv.trigBatchUpdate =>
      { s with deferReflectForNextRedraw := false, timerScheduled := true }
  | SchedEv.timerFire =>
      if s.timerScheduled then
        { s with timerScheduled := false, recomputeCount := s.recomputeCount + 1 }
      else s

def schedRun (evs : List SchedEv) (s : SchedState) : SchedState :=
  evs.foldl (fun st e => schedStep e st) s

/-- C2 counterexample. The claim says the flush recompute happens
immediately, bypassing the debounce delay; but `triggerBatchUpdate` calls
the debounced update, so right after the flush call (batch on, two setter
updates, batch off, flush) zero recomputes have run and a timer is pending —
the single recompute only happens when the debounce timer fires. -/
theorem triggerBatchUpdate_not_immediate :
    (schedRun [SchedEv.setBatch true, SchedEv.trigUpdate, SchedEv.trigUpdate,
        SchedEv.setBatch false, SchedEv.trigBatchUpdate]
      ⟨false, false, 0, false⟩).recomputeCount = 0 ∧
    (schedRun [SchedEv.setBatch true, SchedEv.trigUpdate, SchedEv.trigUpdate,
        SchedEv.setBatch false, SchedEv.trigBatchUpdate]
      ⟨false, false, 0, false⟩).timerScheduled = true ∧
    (schedRun [SchedEv.setBatch true, SchedEv.trigUpdate, SchedEv.trigUpdate,
        SchedEv.setBatch false, SchedEv.trigBatchUpdate, SchedEv.timerFire]
      ⟨false, false, 0, false⟩).recomputeCount = 1 := by
  refine ⟨rfl, rfl, rfl⟩

/-- C2 (amended). While batch mode is on, any number of `triggerUpdate`
requests leave the scheduler state completely unchanged (zero recomputes);
`setBatchMode` by itself never changes the recompute count or the pending
timer; and after `triggerBatchUpdate` the recompute count is still unchanged
(nothing runs immediately), with exactly one recompute occurring once the
debounce timer fires — the flush bypasses batch suppression, not the
debounce delay. -/
theorem batch_suppression (s : SchedState) (evs : List SchedEv)
    (hbatch : s.isBatchMode = true)
    (hevs : ∀ e ∈ evs, e = SchedEv.trigUpdate) :
    schedRun evs s = s ∧
    (∀ b, (schedStep (SchedEv.setBatch b) s).recomputeCount = s.recomputeCount ∧
      (schedStep (SchedEv.setBatch b) s).timerScheduled = s.timerScheduled) ∧
    (schedStep SchedEv.trigBatchUpdate s).recomputeCount = s.recomputeCount ∧
    (schedRun [SchedEv.trigBatchUpdate, SchedEv.timerFire] s).recomputeCount =
      s.recomputeCount + 1 := by
  refine ⟨?_, fun b => ⟨rfl, rfl⟩, rfl, ?_⟩
  · induction evs with
    | nil => rfl
    | cons e rest ih =>
        have he := hevs e (List.mem_cons_self e rest)
        subst he
        show schedRun rest (schedStep SchedEv.trigUpdate s) = s
        rw [show schedStep SchedEv.trigUpdate s = s by simp [schedStep, hbatch]]
        exact ih fun e2 he2 => hevs e2 (List.mem_cons_of_mem _ he2)
  · simp [schedRun, schedStep]

/-- C2 witness: `batch_suppression` applied in a batch-mode state with two
pending setter updates. -/
theorem batch_suppression_witness :
    (⟨true, false, 3, true⟩ : SchedState).isBatchMode = true ∧
    schedRun [SchedEv.trigUpdate, SchedEv.trigUpdate] ⟨true, false, 3, true⟩ =
      ⟨true, false, 3, true⟩ ∧
    (schedRun [SchedEv.trigBatchUpdate, SchedEv.timerFire]
      ⟨true, false, 3, true⟩).recomputeCount = 3 + 1 := by
  have h := batch_suppression ⟨true, false, 3, true⟩
    [SchedEv.trigUpdate, SchedEv.trigUpdate] rfl (by decide)
  exact ⟨rfl, h.1, h.2.2.2⟩

end Dispace

namespace Dispace

/-! ## Image loader races (`ImageLoader.loadMap`, `loadSourceFromBytes`)

Each asynchronous load is split at its suspension point into a synchronous
start (which records the loading token) and a continuation (which checks the
token before mutating engine state). -/

structure MapImg where
  src : String
  deriving DecidableEq, Repr

inductive Tiling
  | tiled
  | stretched
  deriving DecidableEq, Repr

/-- An entry of `engineState.layerImages` as normalized by `loadMap`. -/
structure LayerImage where
  image : MapImg
  tiling : Tiling
  scale : Option ℚ
  scaleMode : Option ScaleMode
  opacity : ℚ
  blendMode : String
  alignX : Option AlignX
  alignY : Option AlignY
  offsetX : Option ℚ
  offsetY : Option ℚ
  deriving DecidableEq

/-- The engine-state fields read and written by the loader. -/
structure LoadState where
  mapImage : Option MapImg
  layerImages : List LayerImage
  currentMapLoadingUrl : Option String
  currentImageId : Option String
  imageWidth : ℚ
  imageHeight : ℚ
  feSourceImgHref : Option String
  deriving DecidableEq

/-- The single-layer normalization `loadMap` applies to a plain URL load:
`{ image, tiling: tiled, opacity: 1, blendMode: source-over }`. -/
def singleLayer (img : MapImg) : LayerImage :=
  ⟨img, Tiling.tiled, none, none, 1, "source-over", none, none, none, none⟩

/-- `ImageLoader.loadMap`, string-URL path, synchronous prefix up to the
`await` of `loadImageWithCache`: the already-current-map fast path
(`mapImage?.src === url`) returns immediately without touching the loading
token; otherwise `currentMapLoadingUrl` is set to the requested URL. -/
def loadMapStart (url : String) (s : LoadState) : LoadState :=
  if s.mapImage.map MapImg.src = some url then s
  else { s with currentMapLoadingUrl := some url }

/-- `ImageLoader.loadMap`, string-URL path, continuation after the image
decode resolves: a stale token means the request was superseded and the
result is dropped; otherwise the decoded image becomes the single layer and
the back-compat `mapImage`. -/
def loadMapComplete (url : String) (img : MapImg) (s : LoadState) : LoadState :=
  if s.currentMapLoadingUrl = some url then
    { s with layerImages := [singleLayer img], mapImage := some img }
  else s

/-- `ImageLoader.loadMap`, string-URL path, continuation when the decode
fails: only a current request clears the map state. -/
def loadMapCompleteErr (url : String) (s : LoadState) : LoadState :=
  if s.currentMapLoadingUrl = some url then
    { s with mapImage := none, currentMapLoadingUrl := none }
  else s

/-- The values `loadSourceFromBytes` applies on success: the original
dimensions and the preview mirrored texture data URL. -/
structure SourceResult where
  originalW : ℚ
  originalH : ℚ
  previewMirroredDataUrl : String
  deriving DecidableEq

/-- `ImageLoader.loadSourceFromBytes`, synchronous prefix: a fresh unique
image id becomes the current token. -/
def loadSourceStart (imageId : String) (s : LoadState) : LoadState :=
  { s with currentImageId := some imageId }

/-- `ImageLoader.loadSourceFromBytes`, continuation after decode: the
race-condition checks drop the result unless the captured id is still the
current one; otherwise the preview texture and original dimensions are
applied. -/
def loadSourceComplete (imageId : String) (r : SourceResult) (s : LoadState) : LoadState :=
  if s.currentImageId = some imageId then
    { s with
      feSourceImgHref := some r.previewMirroredDataUrl
      imageWidth := r.originalW
      imageHeight := r.originalH }
  else s

/-- C3 counterexample. When the engine's current map is already B, issuing
load(A) and then load(B) makes load(B) complete immediately through the
already-current-map fast path, which leaves the loading token at A; when
A's slow decode then resolves it passes the token check and is applied, so
the final state reflects A — the claim's scenario (load(A), then load(B),
B completing first) does not always end in a state reflecting B. -/
theorem load_race_claim_false :
    (loadMapComplete "A" ⟨"A"⟩ (loadMapStart "B" (loadMapStart "A"
        ⟨some ⟨"B"⟩, [singleLayer ⟨"B"⟩], none, none, 512, 512, none⟩))).mapImage =
      some ⟨"A"⟩ ∧
    (loadMapComplete "A" ⟨"A"⟩ (loadMapStart "B" (loadMapStart "A"
        ⟨some ⟨"B"⟩, [singleLayer ⟨"B"⟩], none, none, 512, 512, none⟩))).mapImage ≠
      some ⟨"B"⟩ := by
  refine ⟨rfl, by decide⟩

/-- C3 (amended). Provided load(B) is not satisfied by the
already-current-map fast path (the current map's URL differs from B), the
interleaving load(A); load(B); B completes; A completes ends with engine
state reflecting B — A's stale completion leaves the state unchanged — and
in general any map-load continuation whose captured URL no longer equals
`currentMapLoadingUrl` is a no-op; the source-image load path with its
generation token behaves the same way with no fast-path caveat. -/
theorem load_race_superseded (s0 : LoadState) (A B : String) (imgA imgB : MapImg)
    (idA idB : String) (rA rB : SourceResult)
    (hAB : A ≠ B) (hnotB : s0.mapImage.map MapImg.src ≠ some B) (hid : idA ≠ idB) :
    (loadMapComplete A imgA
        (loadMapComplete B imgB (loadMapStart B (loadMapStart A s0))) =
      loadMapComplete B imgB (loadMapStart B (loadMapStart A s0))) ∧
    (loadMapComplete B imgB (loadMapStart B (loadMapStart A s0))).mapImage = some imgB ∧
    (loadMapComplete B imgB (loadMapStart B (loadMapStart A s0))).layerImages =
      [singleLayer imgB] ∧
    (∀ url img s, s.currentMapLoadingUrl ≠ some url → loadMapComplete url img s = s) ∧
    (loadSourceComplete idA rA
        (loadSourceComplete idB rB (loadSourceStart idB (loadSourceStart idA s0))) =
      loadSourceComplete idB rB (loadSourceStart idB (loadSourceStart idA s0))) ∧
    (loadSourceComplete idB rB
        (loadSourceStart idB (loadSourceStart idA s0))).feSourceImgHref =
      some rB.previewMirroredDataUrl := by
  have hmap1 : ∀ url s, (loadMapStart url s).mapImage = s.mapImage := by
    intro url s; unfold loadMapStart; split <;> rfl
  have hstart : ∀ url s, s.mapImage.map MapImg.src ≠ some url →
      (loadMapStart url s).currentMapLoadingUrl = some url := by
    intro url s h; unfold loadMapStart; rw [if_neg h]
  have htokB : (loadMapStart B (loadMapStart A s0)).currentMapLoadingUrl = some B :=
    hstart B _ (by rw [hmap1]; exact hnotB)
  have htok : ∀ url img s, s.currentMapLoadingUrl ≠ some url →
      loadMapComplete url img s = s := by
    intro url img s h; unfold loadMapComplete; rw [if_neg h]
  have hs3 : loadMapComplete B imgB (loadMapStart B (loadMapStart A s0)) =
      { loadMapStart B (loadMapStart A s0) with
        layerImages := [singleLayer imgB]
        mapImage := some imgB } := by
    unfold loadMapComplete
    rw [if_pos htokB]
  refine ⟨?_, by rw [hs3], by rw [hs3], htok, ?_, ?_⟩
  · refine htok A imgA _ ?_
    rw [hs3]
    show (loadMapStart B (loadMapStart A s0)).currentMapLoadingUrl ≠ some A
    rw [htokB]
    intro h
    exact hAB (Option.some.inj h).symm
  · unfold loadSourceComplete loadSourceStart
    rw [if_pos rfl]
    rw [if_neg (by intro h; exact hid (Option.some.inj h).symm)]
  · unfold loadSourceComplete loadSourceStart
    rw [if_pos rfl]

/-- C3 witness: the amended race theorem at concrete URLs a ≠ b from an
empty initial state. -/
theorem load_race_superseded_witness :
    ("a" : String) ≠ "b" ∧
    (loadMapComplete "b" ⟨"b"⟩ (loadMapStart "b" (loadMapStart "a"
        (⟨none, [], none, none, 512, 512, none⟩ : LoadState)))).mapImage = some ⟨"b"⟩ := by
  refine ⟨by decide, ?_⟩
  exact (load_race_superseded ⟨none, [], none, none, 512, 512, none⟩ "a" "b" ⟨"a"⟩ ⟨"b"⟩
    "i1" "i2" ⟨100, 100, "ua"⟩ ⟨200, 150, "ub"⟩ (by decide) (by simp) (by decide)).2.1

end Dispace

namespace Dispace

/-! ## Shared layer-image cache (`ImageLoader.layerImageCache`)

The JavaScript `Map` is modelled as an association list in insertion order
(oldest first, most-recently-used last), with `Map.delete` and `Map.set`
semantics made explicit. -/

abbrev LayerCache := List (String × ℕ)

/-- `Map.delete`: removes the entry with the given key. -/
def mapDelete (k : String) (c : LayerCache) : LayerCache :=
  c.filter (fun e => e.1 != k)

/-- `Map.set`: updates an existing key in place, otherwise appends the new
entry at the end (newest position). -/
def mapSet (k : String) (v : ℕ) (c : LayerCache) : LayerCache :=
  if c.any (fun e => e.1 == k) then c.map (fun e => if e.1 == k then (k, v) else e)
  else c ++ [(k, v)]

/-- The `while (size > maxSize) delete oldest` loop of
`ImageLoader.evictLayerCacheIfNeeded`. -/
def evictLoop (maxSize : ℕ) : LayerCache → LayerCache
  | [] => []
  | e :: rest =>
      if rest.length + 1 > maxSize then evictLoop maxSize rest else e :: rest

/-- `ImageLoader.evictLayerCacheIfNeeded`, with the configured
`IMAGE_CACHE_MAX_SIZE` as a parameter: `maxSize = Math.max(0, configured)`;
zero clears the cache outright, otherwise oldest entries are removed until
the size fits. -/
def evictLayerCacheIfNeeded (cfgMax : Int) (c : LayerCache) : LayerCache :=
  let maxSize := (max 0 cfgMax).toNat
  if maxSize = 0 then [] else evictLoop maxSize c

/-- `ImageLoader.loadImageWithCache`, cache-hit path: refresh recency by
deleting the key and re-setting it (which appends it at the end). -/
def cacheHitRefresh (k : String) (c : LayerCache) : LayerCache :=
  match c.find? (fun e => e.1 == k) with
  | some e => mapSet k e.2 (mapDelete k c)
  | none => c

/-- `ImageLoader.loadImageWithCache`, `img.onload` path: set the freshly
decoded entry at the end, then evict if needed. -/
def cacheInsertOnLoad (cfgMax : Int) (k : String) (v : ℕ) (c : LayerCache) : LayerCache :=
  evictLayerCacheIfNeeded cfgMax (mapSet k v c)

lemma evictLoop_eq_drop (m : ℕ) (c : LayerCache) :
    evictLoop m c = c.drop (c.length - m) := by
  induction c with
  | nil => simp [evictLoop]
  | cons e rest ih =>
      unfold evictLoop
      by_cases h : rest.length + 1 > m
      · rw [if_pos h, ih]
        have hlen : (e :: rest).length - m = (rest.length - m) + 1 := by
          simp only [List.length_cons]; omega
        rw [hlen, List.drop_succ_cons]
      · rw [if_neg h]
        have hlen : (e :: rest).length - m = 0 := by
          simp only [List.length_cons]; omega
        rw [hlen, List.drop_zero]

lemma find?_key_eq_of_mem_nodup (k : String) (v : ℕ) (c : LayerCache)
    (hmem : (k, v) ∈ c) (hnd : (c.map Prod.fst).Nodup) :
    c.find? (fun e => e.1 == k) = some (k, v) := by
  induction c with
  | nil => cases hmem
  | cons e rest ih =>
      have hnd2 : (e.1 :: rest.map Prod.fst).Nodup := by
        rw [List.map_cons] at hnd; exact hnd
      rcases List.nodup_cons.mp hnd2 with ⟨hnotin, hndrest⟩
      rcases List.mem_cons.mp hmem with heq | hmem'
      · subst heq
        simp [List.find?_cons]
      · have hk : k ∈ rest.map Prod.fst :=
          List.mem_map.mpr ⟨(k, v), hmem', rfl⟩
        have hne : (e.1 == k) = false := by
          by_cases h : e.1 = k
          · rw [h] at hnotin; exact absurd hk hnotin
          · exact beq_false_of_ne h
        rw [List.find?_cons, hne]
        exact ih hmem' hndrest

lemma any_key_eq_false (k : String) (c : LayerCache) (h : k ∉ c.map Prod.fst) :
    c.any (fun e => e.1 == k) = false := by
  rw [List.any_eq_false]
  intro e he heq
  exact h (List.mem_map.mpr ⟨e, he, by simpa using heq⟩)

lemma mapDelete_no_key (k : String) (c : LayerCache) :
    k ∉ (mapDelete k c).map Prod.fst := by
  intro hk
  rcases List.mem_map.mp hk with ⟨e, he, hfst⟩
  have := List.of_mem_filter he
  rw [hfst] at this
  simp at this

/-- C9. The shared layer-image cache behaves as an insertion-order LRU with
the most-recently-used entry at the end: a cache hit moves the hit key to
the end while keeping the other entries in order; a completed load appends
the new entry at the end and, for a positive configured capacity, evicts
exactly the oldest entries (a prefix drop), so the cache never exceeds the
capacity and the fresh entry is never the one evicted; a configured
capacity of zero clears the cache entirely. -/
theorem layer_cache_lru (k : String) (v : ℕ) (c : LayerCache)
    (hmem : (k, v) ∈ c) (hnd : (c.map Prod.fst).Nodup) :
    (cacheHitRefresh k c).getLast? = some (k, v) ∧
    (cacheHitRefresh k c).dropLast = mapDelete k c ∧
    (∀ cfgMax : Int, 0 < cfgMax → ∀ (k2 : String) (v2 : ℕ) (c2 : LayerCache),
      k2 ∉ c2.map Prod.fst →
      cacheInsertOnLoad cfgMax k2 v2 c2 =
        (c2 ++ [(k2, v2)]).drop ((c2.length + 1) - (max 0 cfgMax).toNat) ∧
      (cacheInsertOnLoad cfgMax k2 v2 c2).length ≤ (max 0 cfgMax).toNat ∧
      (cacheInsertOnLoad cfgMax k2 v2 c2).getLast? = some (k2, v2)) ∧
    (∀ c2 : LayerCache, evictLayerCacheIfNeeded 0 c2 = []) := by
  have hhit : cacheHitRefresh k c = mapDelete k c ++ [(k, v)] := by
    unfold cacheHitRefresh
    rw [find?_key_eq_of_mem_nodup k v c hmem hnd]
    show mapSet k v (mapDelete k c) = mapDelete k c ++ [(k, v)]
    unfold mapSet
    rw [any_key_eq_false k _ (mapDelete_no_key k c)]
    rfl
  refine ⟨?_, ?_, ?_, ?_⟩
  · rw [hhit, List.getLast?_concat]
  · rw [hhit, List.dropLast_concat]
  · intro cfgMax hpos k2 v2 c2 hk2
    have hm : 0 < (max 0 cfgMax).toNat := by omega
    have hset : mapSet k2 v2 c2 = c2 ++ [(k2, v2)] := by
      unfold mapSet
      rw [any_key_eq_false k2 c2 hk2]
      rfl
    have hins : cacheInsertOnLoad cfgMax k2 v2 c2 =
        (c2 ++ [(k2, v2)]).drop ((c2.length + 1) - (max 0 cfgMax).toNat) := by
      unfold cacheInsertOnLoad evictLayerCacheIfNeeded
      rw [hset]
      simp only [if_neg (Nat.pos_iff_ne_zero.mp hm)]
      rw [evictLoop_eq_drop]
      simp [List.length_append]
    refine ⟨hins, ?_, ?_⟩
    · rw [hins]
      simp only [List.length_drop, List.length_append, List.length_singleton]
      omega
    · rw [hins]
      have hle : (c2.length + 1) - (max 0 cfgMax).toNat ≤ c2.length := by omega
      rw [List.drop_append_of_le_length hle, List.getLast?_concat]
  · intro c2
    rfl

/-- C9 witness: the LRU theorem on the two-entry cache [(x,5),(k,7)] with a
hit on k and capacity 1 insertions. -/
theorem layer_cache_lru_witness :
    (("k", 7) ∈ ([("x", 5), ("k", 7)] : LayerCache)) ∧
    (([("x", 5), ("k", 7)] : LayerCache).map Prod.fst).Nodup ∧
    (cacheHitRefresh "k" [("x", 5), ("k", 7)]).getLast? = some ("k", 7) := by
  refine ⟨by decide, by decide, ?_⟩
  exact (layer_cache_lru "k" 7 [("x", 5), ("k", 7)] (by decide) (by decide)).1

end Dispace

namespace Dispace

/-! ## Final-resolution export (`FilterRenderer.renderToBytes`)

The live-preview-visible pieces of state the export path touches: the
displacement `feImage` attributes (`feImg`), the source `feImage` href
(`feSourceImg`), and the internal composition canvas. Canvas pixel content
is an abstract tag. -/

structure RenderDom where
  feImgHref : Option String
  feImgW : ℚ
  feImgH : ℚ
  feSourceImgHref : Option String
  canvasW : ℚ
  canvasH : ℚ
  canvasContent : ℕ
  deriving DecidableEq

/-- Inputs `renderToBytes` reads besides the DOM: the SVG viewBox, whether
a displacement map is set, whether an image loader was supplied, the
loader's stored original mirrored texture and current image id, and the
abstract full-resolution composite that the prepare step draws. -/
structure ExportEnv where
  vbW : ℚ
  vbH : ℚ
  mapImagePresent : Bool
  loaderPresent : Bool
  originalMirrored : Option String
  loaderImageId : Option String
  exportComposite : ℕ
  deriving DecidableEq

/-- `canvas.toDataURL` on the modelled canvas content. -/
def canvasDataUrl (content : ℕ) : String :=
  "data:image/png;base64," ++ toString content

/-- `ImageLoader.getTextureSnapshot` as read at the start of
`renderToBytes`: the original texture, the current `feSourceImg` href as
the preview texture, and the current image id. -/
structure TextureSnapshot where
  originalTexture : Option String
  previewTexture : Option String
  imageId : Option String

def getTextureSnapshot (env : ExportEnv) (d : RenderDom) : TextureSnapshot :=
  ⟨env.originalMirrored, d.feSourceImgHref, env.loaderImageId⟩

/-- `prepareHighResFeImgForExport`: with a map set, resize the composition
canvas to the full viewBox, draw the full-resolution composite, point the
`feImg` attributes at it; without a map, inline the existing canvas as a
fallback href. -/
def prepareHighResFeImg (env : ExportEnv) (d : RenderDom) : RenderDom :=
  if env.mapImagePresent then
    { d with
      canvasW := max 1 env.vbW
      canvasH := max 1 env.vbH
      canvasContent := env.exportComposite
      feImgW := max 1 env.vbW
      feImgH := max 1 env.vbH
      feImgHref := some (canvasDataUrl env.exportComposite) }
  else
    { d with feImgHref := some (canvasDataUrl d.canvasContent) }

/-- The guard deciding whether `renderToBytes` swaps the preview source
texture for the original high-quality one. -/
def exportSwapsSource (env : ExportEnv) (snap : TextureSnapshot) : Bool :=
  (!MATCH_PREVIEW_ON_EXPORT) && env.loaderPresent && snap.originalTexture.isSome &&
    snap.previewTexture.isSome && (snap.originalTexture != snap.previewTexture) &&
    (env.loaderImageId == snap.imageId)

/-- The `finally` block of `renderToBytes`: restore the saved `feImg` href
when one had been set, and restore the preview source texture when it was
swapped. -/
def exportFinallyCleanup (originalFeImgHref : Option String) (swapped : Bool)
    (snap : TextureSnapshot) (d : RenderDom) : RenderDom :=
  let d3 := match originalFeImgHref with
    | some href => { d with feImgHref := some href }
    | none => d
  if swapped && snap.previewTexture.isSome then
    { d3 with feSourceImgHref := snap.previewTexture }
  else d3

/-- A fallible step of the export pipeline after the DOM mutations
(`loadImageFromUrl` of the serialized SVG, or the canvas encode). -/
inductive ExportFailure
  | loadImage
  | encode
  deriving DecidableEq

/-- `FilterRenderer.renderToBytes`: snapshot, save the `feImg` href,
prepare the high-resolution displacement texture, optionally swap the
source texture, run the fallible serialize/load/draw/encode pipeline, and
run the `finally` cleanup in every case. -/
def renderToBytes (env : ExportEnv) (failAt : Option ExportFailure)
    (d0 : RenderDom) : Except Unit Unit × RenderDom :=
  let snap := getTextureSnapshot env d0
  let originalFeImgHref := d0.feImgHref
  let d1 := prepareHighResFeImg env d0
  let swapped := exportSwapsSource env snap
  let d2 := if swapped then { d1 with feSourceImgHref := snap.originalTexture } else d1
  let result : Except Unit Unit := if failAt.isSome then Except.error () else Except.ok ()
  (result, exportFinallyCleanup originalFeImgHref swapped snap d2)

lemma prepare_feSource (env : ExportEnv) (d : RenderDom) :
    (prepareHighResFeImg env d).feSourceImgHref = d.feSourceImgHref := by
  unfold prepareHighResFeImg; split <;> rfl

lemma exportSwapsSource_preview_isSome (env : ExportEnv) (snap : TextureSnapshot)
    (h : exportSwapsSource env snap = true) : snap.previewTexture.isSome = true := by
  unfold exportSwapsSource at h
  simp only [Bool.and_eq_true] at h
  exact h.1.1.2

lemma cleanup_feSource_of_swapped (ho : Option String) (snap : TextureSnapshot)
    (d : RenderDom) (hp : snap.previewTexture.isSome = true) :
    (exportFinallyCleanup ho true snap d).feSourceImgHref = snap.previewTexture := by
  unfold exportFinallyCleanup
  cases ho <;> simp [hp]

lemma cleanup_feSource_not_swapped (ho : Option String) (snap : TextureSnapshot)
    (d : RenderDom) :
    (exportFinallyCleanup ho false snap d).feSourceImgHref = d.feSourceImgHref := by
  unfold exportFinallyCleanup
  cases ho <;> simp

lemma cleanup_feImgHref (href : String) (sw : Bool) (snap : TextureSnapshot)
    (d : RenderDom) :
    (exportFinallyCleanup (some href) sw snap d).feImgHref = some href := by
  unfold exportFinallyCleanup
  cases h : sw && snap.previewTexture.isSome <;> simp [h]

/-- C4 counterexample. A successful export on a 512×512 viewBox with a map
set, starting from a preview-downscaled 500×500 composition canvas and a
not-yet-assigned `feImg` href: after `renderToBytes` the composition canvas
dimensions and content and the `feImg` width and href are all left at their
export-time values instead of being restored, so not every
live-preview-visible piece of swapped state is restored. -/
theorem renderToBytes_cleanup_claim_false :
    ((renderToBytes ⟨512, 512, true, true, some "orig", some "id1", 1⟩ none
        ⟨none, 7, 7, some "prev", 500, 500, 0⟩).2.canvasW ≠ 500) ∧
    ((renderToBytes ⟨512, 512, true, true, some "orig", some "id1", 1⟩ none
        ⟨none, 7, 7, some "prev", 500, 500, 0⟩).2.canvasContent ≠ 0) ∧
    ((renderToBytes ⟨512, 512, true, true, some "orig", some "id1", 1⟩ none
        ⟨none, 7, 7, some "prev", 500, 500, 0⟩).2.feImgW ≠ 7) ∧
    ((renderToBytes ⟨512, 512, true, true, some "orig", some "id1", 1⟩ none
        ⟨none, 7, 7, some "prev", 500, 500, 0⟩).2.feImgHref ≠ none) := by
  refine ⟨by decide, by decide, by decide, by decide⟩

/-- C4 (amended). For every export, successful or failing at any step, the
`finally` cleanup unconditionally restores the source-image texture to its
pre-export value and restores the displacement `feImage` href whenever one
had previously been set; a failing step surfaces as an error result. The
composition canvas (and the `feImage` width/height, and the href when it
was previously unset) stay at their export-time values. -/
theorem renderToBytes_cleanup (env : ExportEnv) (failAt : Option ExportFailure)
    (d0 : RenderDom) :
    (renderToBytes env failAt d0).2.feSourceImgHref = d0.feSourceImgHref ∧
    (d0.feImgHref ≠ none → (renderToBytes env failAt d0).2.feImgHref = d0.feImgHref) ∧
    (failAt ≠ none → (renderToBytes env failAt d0).1 = Except.error ()) := by
  refine ⟨?_, ?_, ?_⟩
  · show (exportFinallyCleanup d0.feImgHref (exportSwapsSource env (getTextureSnapshot env d0))
        (getTextureSnapshot env d0)
        (if exportSwapsSource env (getTextureSnapshot env d0) = true then
          { prepareHighResFeImg env d0 with
            feSourceImgHref := (getTextureSnapshot env d0).originalTexture }
        else prepareHighResFeImg env d0)).feSourceImgHref = d0.feSourceImgHref
    cases hsw : exportSwapsSource env (getTextureSnapshot env d0) with
    | true =>
        rw [cleanup_feSource_of_swapped _ _ _
          (exportSwapsSource_preview_isSome _ _ hsw)]
        rfl
    | false =>
        rw [cleanup_feSource_not_swapped]
        simp only [Bool.false_eq_true, if_false]
        exact prepare_feSource env d0
  · intro hne
    obtain ⟨href, h⟩ := Option.ne_none_iff_exists'.mp hne
    show (exportFinallyCleanup d0.feImgHref (exportSwapsSource env (getTextureSnapshot env d0))
        (getTextureSnapshot env d0)
        (if exportSwapsSource env (getTextureSnapshot env d0) = true then
          { prepareHighResFeImg env d0 with
            feSourceImgHref := (getTextureSnapshot env d0).originalTexture }
        else prepareHighResFeImg env d0)).feImgHref = d0.feImgHref
    rw [h, cleanup_feImgHref]
  · intro hne
    show (if failAt.isSome then Except.error () else Except.ok ()) = Except.error ()
    cases failAt with
    | some f => rfl
    | none => exact absurd rfl hne

/-- C4 witness: the amended cleanup theorem on a failing export (encode
failure) from a state with a previously set `feImg` href. -/
theorem renderToBytes_cleanup_witness :
    ((⟨some "pv", 512, 512, some "prev", 500, 500, 0⟩ : RenderDom).feImgHref ≠ none) ∧
    (some ExportFailure.encode ≠ (none : Option ExportFailure)) ∧
    (renderToBytes ⟨512, 512, true, true, some "orig", some "id1", 1⟩
        (some ExportFailure.encode)
        ⟨some "pv", 512, 512, some "prev", 500, 500, 0⟩).2.feImgHref = some "pv" ∧
    (renderToBytes ⟨512, 512, true, true, some "orig", some "id1", 1⟩
        (some ExportFailure.encode)
        ⟨some "pv", 512, 512, some "prev", 500, 500, 0⟩).2.feSourceImgHref = some "prev" := by
  have h := renderToBytes_cleanup ⟨512, 512, true, true, some "orig", some "id1", 1⟩
    (some ExportFailure.encode) ⟨some "pv", 512, 512, some "prev", 500, 500, 0⟩
  exact ⟨by simp, by simp, h.2.1 (by simp), h.1⟩

end Dispace


namespace Dispace

/-! ## Mirrored-edge texture (`createMirroredTexture` in src/ui/utils/image.ts)

Integer pixel raster semantics of the canvas 2D calls used by
`createMirroredTexture`: every `drawImage` there is an unscaled blit of a
source rectangle, optionally flipped in X and/or Y by the surrounding
`translate`/`scale(±1, ±1)` transform pair. -/

/-- Source bitmap pixel fetch (pixel values are abstract). -/
abbrev SrcImage := ℤ → ℤ → ℕ

/-- Canvas raster; `none` is the initial transparent pixel. -/
abbrev PixCanvas := ℤ → ℤ → Option ℕ

/-- One unscaled `ctx.drawImage(img, sx, sy, sw, sh, …)` blit: the source
rect `[sx, sx+sw) × [sy, sy+sh)` painted at `[dx, dx+sw) × [dy, dy+sh)`;
a flipped axis reads the source rect in reverse order. Later blits
overwrite earlier pixels. -/
def blit (img : SrcImage) (sx sy sw sh dx dy : ℤ) (flipX flipY : Bool)
    (c : PixCanvas) : PixCanvas := fun X Y =>
  if dx ≤ X ∧ X < dx + sw ∧ dy ≤ Y ∧ Y < dy + sh then
    some (img (sx + cond flipX (dx + sw - 1 - X) (X - dx))
              (sy + cond flipY (dy + sh - 1 - Y) (Y - dy)))
  else c X Y

/-- `const p = Math.max(0, padding)` at the top of `createMirroredTexture`. -/
def mirrorPad (padding : ℤ) : ℤ := max 0 padding

/-- `createMirroredTexture(img, padding)` on a `w × h` source: the center
draw, then the mirrored top, bottom, left and right edge strips, then the
four doubly mirrored corners (top-left, top-right, bottom-left,
bottom-right), painted in source order — the outermost `blit` below is the
last draw. -/
def createMirroredTexture (img : SrcImage) (w h padding : ℤ) : PixCanvas :=
  blit img (w - mirrorPad padding) (h - mirrorPad padding) (mirrorPad padding)
      (mirrorPad padding) (w + mirrorPad padding) (h + mirrorPad padding) true true
    (blit img 0 (h - mirrorPad padding) (mirrorPad padding) (mirrorPad padding) 0
        (h + mirrorPad padding) true true
      (blit img (w - mirrorPad padding) 0 (mirrorPad padding) (mirrorPad padding)
          (w + mirrorPad padding) 0 true true
        (blit img 0 0 (mirrorPad padding) (mirrorPad padding) 0 0 true true
          (blit img (w - mirrorPad padding) 0 (mirrorPad padding) h
              (w + mirrorPad padding) (mirrorPad padding) true false
            (blit img 0 0 (mirrorPad padding) h 0 (mirrorPad padding) true false
              (blit img 0 (h - mirrorPad padding) w (mirrorPad padding)
                  (mirrorPad padding) (h + mirrorPad padding) false true
                (blit img 0 0 w (mirrorPad padding) (mirrorPad padding) 0 false true
                  (blit img 0 0 w h (mirrorPad padding) (mirrorPad padding)
                    false false (fun _ _ => none)))))))))

/-- Output canvas width: `cnv.width = w + p * 2`. -/
def mirroredWidth (w padding : ℤ) : ℤ := w + 2 * mirrorPad padding

/-- Output canvas height: `cnv.height = h + p * 2`. -/
def mirroredHeight (h padding : ℤ) : ℤ := h + 2 * mirrorPad padding

lemma mirrorPad_eq {p : ℤ} (hp0 : 0 ≤ p) : mirrorPad p = p :=
  max_eq_right hp0

lemma blit_in {img : SrcImage} {sx sy sw sh dx dy : ℤ} {flipX flipY : Bool}
    {c : PixCanvas} {X Y : ℤ}
    (hin : dx ≤ X ∧ X < dx + sw ∧ dy ≤ Y ∧ Y < dy + sh) :
    blit img sx sy sw sh dx dy flipX flipY c X Y =
      some (img (sx + cond flipX (dx + sw - 1 - X) (X - dx))
                (sy + cond flipY (dy + sh - 1 - Y) (Y - dy))) := by
  unfold blit; rw [if_pos hin]

lemma blit_out {img : SrcImage} {sx sy sw sh dx dy : ℤ} {flipX flipY : Bool}
    {c : PixCanvas} {X Y : ℤ}
    (hout : ¬(dx ≤ X ∧ X < dx + sw ∧ dy ≤ Y ∧ Y < dy + sh)) :
    blit img sx sy sw sh dx dy flipX flipY c X Y = c X Y := by
  unfold blit; rw [if_neg hout]

lemma some_img_congr (img : SrcImage) {a b c d : ℤ} (h1 : a = c) (h2 : b = d) :
    (some (img a b) : Option ℕ) = some (img c d) := by rw [h1, h2]

lemma mirrored_center (img : SrcImage) (w h p X Y : ℤ) (hp0 : 0 ≤ p)
    (hpw : p ≤ w) (hph : p ≤ h)
    (hx1 : p ≤ X) (hx2 : X < p + w) (hy1 : p ≤ Y) (hy2 : Y < p + h) :
    createMirroredTexture img w h p X Y = some (img (X - p) (Y - p)) := by
  unfold createMirroredTexture
  simp only [mirrorPad_eq hp0]
  rw [blit_out (by omega), blit_out (by omega), blit_out (by omega), blit_out (by omega),
    blit_out (by omega), blit_out (by omega), blit_out (by omega), blit_out (by omega),
    blit_in (by omega)]
  simp only [Bool.cond_false, Bool.cond_true]
  exact some_img_congr img (by omega) (by omega)

lemma mirrored_top (img : SrcImage) (w h p X Y : ℤ) (hp0 : 0 ≤ p)
    (hpw : p ≤ w) (hph : p ≤ h)
    (hx1 : p ≤ X) (hx2 : X < p + w) (hy1 : 0 ≤ Y) (hy2 : Y < p) :
    createMirroredTexture img w h p X Y = some (img (X - p) (p - 1 - Y)) := by
  unfold createMirroredTexture
  simp only [mirrorPad_eq hp0]
  rw [blit_out (by omega), blit_out (by omega), blit_out (by omega), blit_out (by omega),
    blit_out (by omega), blit_out (by omega), blit_out (by omega), blit_in (by omega)]
  simp only [Bool.cond_false, Bool.cond_true]
  exact some_img_congr img (by omega) (by omega)

lemma mirrored_bottom (img : SrcImage) (w h p X Y : ℤ) (hp0 : 0 ≤ p)
    (hpw : p ≤ w) (hph : p ≤ h)
    (hx1 : p ≤ X) (hx2 : X < p + w) (hy1 : h + p ≤ Y) (hy2 : Y < h + 2 * p) :
    createMirroredTexture img w h p X Y = some (img (X - p) (2 * h + p - 1 - Y)) := by
  unfold createMirroredTexture
  simp only [mirrorPad_eq hp0]
  rw [blit_out (by omega), blit_out (by omega), blit_out (by omega), blit_out (by omega),
    blit_out (by omega), blit_out (by omega), blit_in (by omega)]
  simp only [Bool.cond_false, Bool.cond_true]
  exact some_img_congr img (by omega) (by omega)

lemma mirrored_left (img : SrcImage) (w h p X Y : ℤ) (hp0 : 0 ≤ p)
    (hpw : p ≤ w) (hph : p ≤ h)
    (hx1 : 0 ≤ X) (hx2 : X < p) (hy1 : p ≤ Y) (hy2 : Y < p + h) :
    createMirroredTexture img w h p X Y = some (img (p - 1 - X) (Y - p)) := by
  unfold createMirroredTexture
  simp only [mirrorPad_eq hp0]
  rw [blit_out (by omega), blit_out (by omega), blit_out (by omega), blit_out (by omega),
    blit_out (by omega), blit_in (by omega)]
  simp only [Bool.cond_false, Bool.cond_true]
  exact some_img_congr img (by omega) (by omega)

lemma mirrored_right (img : SrcImage) (w h p X Y : ℤ) (hp0 : 0 ≤ p)
    (hpw : p ≤ w) (hph : p ≤ h)
    (hx1 : w + p ≤ X) (hx2 : X < w + 2 * p) (hy1 : p ≤ Y) (hy2 : Y < p + h) :
    createMirroredTexture img w h p X Y = some (img (2 * w + p - 1 - X) (Y - p)) := by
  unfold createMirroredTexture
  simp only [mirrorPad_eq hp0]
  rw [blit_out (by omega), blit_out (by omega), blit_out (by omega), blit_out (by omega),
    blit_in (by omega)]
  simp only [Bool.cond_false, Bool.cond_true]
  exact some_img_congr img (by omega) (by omega)

lemma mirrored_tl (img : SrcImage) (w h p X Y : ℤ) (hp0 : 0 ≤ p)
    (hpw : p ≤ w) (hph : p ≤ h)
    (hx1 : 0 ≤ X) (hx2 : X < p) (hy1 : 0 ≤ Y) (hy2 : Y < p) :
    createMirroredTexture img w h p X Y = some (img (p - 1 - X) (p - 1 - Y)) := by
  unfold createMirroredTexture
  simp only [mirrorPad_eq hp0]
  rw [blit_out (by omega), blit_out (by omega), blit_out (by omega), blit_in (by omega)]
  simp only [Bool.cond_false, Bool.cond_true]
  exact some_img_congr img (by omega) (by omega)

lemma mirrored_tr (img : SrcImage) (w h p X Y : ℤ) (hp0 : 0 ≤ p)
    (hpw : p ≤ w) (hph : p ≤ h)
    (hx1 : w + p ≤ X) (hx2 : X < w + 2 * p) (hy1 : 0 ≤ Y) (hy2 : Y < p) :
    createMirroredTexture img w h p X Y = some (img (2 * w + p - 1 - X) (p - 1 - Y)) := by
  unfold createMirroredTexture
  simp only [mirrorPad_eq hp0]
  rw [blit_out (by omega), blit_out (by omega), blit_in (by omega)]
  simp only [Bool.cond_false, Bool.cond_true]
  exact some_img_congr img (by omega) (by omega)

lemma mirrored_bl (img : SrcImage) (w h p X Y : ℤ) (hp0 : 0 ≤ p)
    (hpw : p ≤ w) (hph : p ≤ h)
    (hx1 : 0 ≤ X) (hx2 : X < p) (hy1 : h + p ≤ Y) (hy2 : Y < h + 2 * p) :
    createMirroredTexture img w h p X Y = some (img (p - 1 - X) (2 * h + p - 1 - Y)) := by
  unfold createMirroredTexture
  simp only [mirrorPad_eq hp0]
  rw [blit_out (by omega), blit_in (by omega)]
  simp only [Bool.cond_false, Bool.cond_true]
  exact some_img_congr img (by omega) (by omega)

lemma mirrored_br (img : SrcImage) (w h p X Y : ℤ) (hp0 : 0 ≤ p)
    (hpw : p ≤ w) (hph : p ≤ h)
    (hx1 : w + p ≤ X) (hx2 : X < w + 2 * p) (hy1 : h + p ≤ Y) (hy2 : Y < h + 2 * p) :
    createMirroredTexture img w h p X Y =
      some (img (2 * w + p - 1 - X) (2 * h + p - 1 - Y)) := by
  unfold createMirroredTexture
  simp only [mirrorPad_eq hp0]
  rw [blit_in (by omega)]
  simp only [Bool.cond_false, Bool.cond_true]
  exact some_img_congr img (by omega) (by omega)

/-- C6 counterexample. For the 2×2 source whose pixel value is its row
index, mirrored with padding P = 1, the pixel at (1, P−1) is source row 0
but the pixel at (1, P+1) is source row 1: the mirror duplicates the edge
row (row P−1 equals row P), so the claimed equality of rows P−1 and P+1
fails. -/
theorem mirrored_texture_claim_false :
    createMirroredTexture (fun _ y => y.natAbs) 2 2 1 1 0 ≠
      createMirroredTexture (fun _ y => y.natAbs) 2 2 1 1 2 := by
  decide

/-- C6 (amended). A mirrored texture built with padding 0 < P ≤ min(W,H)
from a W×H source has dimensions (W+2P)×(H+2P), and is mirror-symmetric
about each edge boundary of the centered image: the row at `y = P−1−k`
equals the row at `y = P+k` for `0 ≤ k < P` (so row P−1 duplicates row P,
rather than row P−1 equalling row P+1), with the analogous reflections at
the bottom, left and right edges and both-axis reflections at the four
corners. -/
theorem mirrored_texture_symmetry (img : SrcImage) (w h p : ℤ)
    (hp : 0 < p) (hpw : p ≤ w) (hph : p ≤ h) :
    (mirroredWidth w p = w + 2 * p ∧ mirroredHeight h p = h + 2 * p) ∧
    (∀ X k : ℤ, p ≤ X → X < p + w → 0 ≤ k → k < p →
      createMirroredTexture img w h p X (p - 1 - k) =
        createMirroredTexture img w h p X (p + k)) ∧
    (∀ X k : ℤ, p ≤ X → X < p + w → 0 ≤ k → k < p →
      createMirroredTexture img w h p X (h + p + k) =
        createMirroredTexture img w h p X (h + p - 1 - k)) ∧
    (∀ Y k : ℤ, p ≤ Y → Y < p + h → 0 ≤ k → k < p →
      createMirroredTexture img w h p (p - 1 - k) Y =
        createMirroredTexture img w h p (p + k) Y) ∧
    (∀ Y k : ℤ, p ≤ Y → Y < p + h → 0 ≤ k → k < p →
      createMirroredTexture img w h p (w + p + k) Y =
        createMirroredTexture img w h p (w + p - 1 - k) Y) ∧
    (∀ kx ky : ℤ, 0 ≤ kx → kx < p → 0 ≤ ky → ky < p →
      (createMirroredTexture img w h p (p - 1 - kx) (p - 1 - ky) =
          createMirroredTexture img w h p (p + kx) (p + ky)) ∧
      (createMirroredTexture img w h p (w + p + kx) (p - 1 - ky) =
          createMirroredTexture img w h p (w + p - 1 - kx) (p + ky)) ∧
      (createMirroredTexture img w h p (p - 1 - kx) (h + p + ky) =
          createMirroredTexture img w h p (p + kx) (h + p - 1 - ky)) ∧
      (createMirroredTexture img w h p (w + p + kx) (h + p + ky) =
          createMirroredTexture img w h p (w + p - 1 - kx) (h + p - 1 - ky))) := by
  have hp0 : (0 : ℤ) ≤ p := hp.le
  refine ⟨⟨by unfold mirroredWidth; rw [mirrorPad_eq hp0],
          by unfold mirroredHeight; rw [mirrorPad_eq hp0]⟩, ?_, ?_, ?_, ?_, ?_⟩
  · intro X k hX1 hX2 hk0 hk1
    rw [mirrored_top img w h p X (p - 1 - k) hp0 hpw hph hX1 hX2 (by omega) (by omega),
      mirrored_center img w h p X (p + k) hp0 hpw hph hX1 hX2 (by omega) (by omega)]
    exact some_img_congr img rfl (by omega)
  · intro X k hX1 hX2 hk0 hk1
    rw [mirrored_bottom img w h p X (h + p + k) hp0 hpw hph hX1 hX2 (by omega) (by omega),
      mirrored_center img w h p X (h + p - 1 - k) hp0 hpw hph hX1 hX2 (by omega) (by omega)]
    exact some_img_congr img rfl (by omega)
  · intro Y k hY1 hY2 hk0 hk1
    rw [mirrored_left img w h p (p - 1 - k) Y hp0 hpw hph (by omega) (by omega) hY1 hY2,
      mirrored_center img w h p (p + k) Y hp0 hpw hph (by omega) (by omega) hY1 hY2]
    exact some_img_congr img (by omega) rfl
  · intro Y k hY1 hY2 hk0 hk1
    rw [mirrored_right img w h p (w + p + k) Y hp0 hpw hph (by omega) (by omega) hY1 hY2,
      mirrored_center img w h p (w + p - 1 - k) Y hp0 hpw hph (by omega) (by omega) hY1 hY2]
    exact some_img_congr img (by omega) rfl
  · intro kx ky hkx0 hkx1 hky0 hky1
    refine ⟨?_, ?_, ?_, ?_⟩
    · rw [mirrored_tl img w h p (p - 1 - kx) (p - 1 - ky) hp0 hpw hph
        (by omega) (by omega) (by omega) (by omega),
        mirrored_center img w h p (p + kx) (p + ky) hp0 hpw hph
        (by omega) (by omega) (by omega) (by omega)]
      exact some_img_congr img (by omega) (by omega)
    · rw [mirrored_tr img w h p (w + p + kx) (p - 1 - ky) hp0 hpw hph
        (by omega) (by omega) (by omega) (by omega),
        mirrored_center img w h p (w + p - 1 - kx) (p + ky) hp0 hpw hph
        (by omega) (by omega) (by omega) (by omega)]
      exact some_img_congr img (by omega) (by omega)
    · rw [mirrored_bl img w h p (p - 1 - kx) (h + p + ky) hp0 hpw hph
        (by omega) (by omega) (by omega) (by omega),
        mirrored_center img w h p (p + kx) (h + p - 1 - ky) hp0 hpw hph
        (by omega) (by omega) (by omega) (by omega)]
      exact some_img_congr img (by omega) (by omega)
    · rw [mirrored_br img w h p (w + p + kx) (h + p + ky) hp0 hpw hph
        (by omega) (by omega) (by omega) (by omega),
        mirrored_center img w h p (w + p - 1 - kx) (h + p - 1 - ky) hp0 hpw hph
        (by omega) (by omega) (by omega) (by omega)]
      exact some_img_congr img (by omega) (by omega)

/-- C6 witness: the amended symmetry theorem on a 2×2 source with padding 1
at the top edge (row P−1 equals row P at column 1). -/
theorem mirrored_texture_symmetry_witness :
    (0 : ℤ) < 1 ∧ (1 : ℤ) ≤ 2 ∧
    mirroredWidth 2 1 = 2 + 2 * 1 ∧
    createMirroredTexture (fun x y => (x + 2 * y).natAbs) 2 2 1 1 0 =
      createMirroredTexture (fun x y => (x + 2 * y).natAbs) 2 2 1 1 1 := by
  have hmain := mirrored_texture_symmetry (fun x y => (x + 2 * y).natAbs) 2 2 1
    (by norm_num) (by norm_num) (by norm_num)
  exact ⟨by norm_num, by norm_num, hmain.1.1,
    hmain.2.1 1 0 (by norm_num) (by norm_num) (by norm_num) (by norm_num)⟩

end Dispace
